import Mathlib

/-!
Shallow embedding of the promodata-sync backend (src/server/index.js):
the pricing rules engine, the product transformer, the sequential sync
job runner, and the HTTP handlers for settings updates and job
submission and status. JS numbers carrying prices and margins are
modelled as exact rationals, optional or absent JS values as Option,
and thrown exceptions as Except results. The outcomes of external
network calls made by the runner are supplied by per-item environments.
-/

deriving instance DecidableEq for Except

namespace Promodata

/-- JS string truthiness of an optional string: undefined, null and the
empty string are falsy. -/
def optTruthy : Option String → Bool
  | none => false
  | some s => !(s == "")

/-- The JS expression a OR-ELSE b on optional strings: a when truthy,
otherwise b. -/
def jsOrStr (a b : Option String) : Option String :=
  if optTruthy a then a else b

/-- JS template interpolation of a possibly undefined string value. -/
def jsShow : Option String → String
  | some s => s
  | none => "undefined"

/-- Model of JS toLowerCase via the ASCII folding of Char.toLower. -/
def lowerStr (s : String) : String := String.mk (s.data.map Char.toLower)

/-- Substring test on character lists, as used by JS includes. -/
def listIncludes (sub : List Char) : List Char → Bool
  | [] => sub.isEmpty
  | c :: t => sub.isPrefixOf (c :: t) || listIncludes sub t

/-- JS includes on strings. -/
def strIncludes (s sub : String) : Bool := listIncludes sub.data s.data

/-- Decimal digit character for d mod 10. -/
def digitChar (d : Nat) : Char :=
  match d % 10 with
  | 0 => '0'
  | 1 => '1'
  | 2 => '2'
  | 3 => '3'
  | 4 => '4'
  | 5 => '5'
  | 6 => '6'
  | 7 => '7'
  | 8 => '8'
  | _ => '9'

/-- Model of JS toFixed applied with 2 digits, on exact rationals: round
the absolute value to whole cents, half away from zero, then print the
integer part followed by an explicit two-digit fractional part. -/
def toFixed2 (q : ℚ) : String :=
  let sign := if q < 0 then "-" else ""
  let cents : Nat := (Int.floor (|q| * 100 + 1 / 2)).toNat
  sign ++ (toString (cents / 100) ++ ("." ++ String.mk [digitChar (cents / 10), digitChar cents]))

/-- One conditional pricing rule from the settings. -/
structure Rule where
  conditionField : String
  conditionOperator : String
  conditionValue : Option String
  margin : ℚ
  deriving DecidableEq, Repr

/-- The margin configuration: ordered conditional rules and a default. -/
structure Rules where
  defaultMargin : ℚ
  conditionalRules : List Rule
  deriving DecidableEq, Repr

structure Mappings where
  categories : List String
  fields : List String
  deriving DecidableEq, Repr

structure Notifications where
  email : String
  onSuccess : Bool
  onFailure : Bool
  deriving DecidableEq, Repr

structure Advanced where
  requestsPerMinute : Nat
  deriving DecidableEq, Repr

structure Settings where
  rules : Rules
  mappings : Mappings
  notifications : Notifications
  advanced : Advanced
  deriving DecidableEq, Repr

/-- The default settings initialised at server start. -/
def defaultSettings : Settings :=
  { rules := { defaultMargin := 30, conditionalRules := [] }
  , mappings := { categories := [], fields := [] }
  , notifications := { email := "", onSuccess := false, onFailure := true }
  , advanced := { requestsPerMinute := 60 } }

/-- A shallow-merge patch for POST /api/settings: top-level keys present
in the request body replace the corresponding settings keys. -/
structure SettingsPatch where
  rules : Option Rules
  mappings : Option Mappings
  notifications : Option Notifications
  advanced : Option Advanced
  deriving DecidableEq, Repr

/-- Shallow merge of a settings patch, as the spread of the request body
over the current settings object. -/
def mergeSettings (s : Settings) (p : SettingsPatch) : Settings :=
  { rules := p.rules.getD s.rules
  , mappings := p.mappings.getD s.mappings
  , notifications := p.notifications.getD s.notifications
  , advanced := p.advanced.getD s.advanced }

/-- checkCondition from the pricing rules engine: false when either side
is falsy, otherwise a case-insensitive comparison dispatched on the
operator string, with unknown operators giving false. -/
def checkCondition (productValue : Option String) (operator : String) (ruleValue : Option String) : Bool :=
  match productValue, ruleValue with
  | some pv, some rv =>
    if pv == "" || rv == "" then false
    else
      let prodVal := lowerStr pv
      let ruleVal := lowerStr rv
      if operator == "is" then prodVal == ruleVal
      else if operator == "is_not" then prodVal != ruleVal
      else if operator == "contains" then strIncludes prodVal ruleVal
      else if operator == "does_not_contain" then !(strIncludes prodVal ruleVal)
      else false
  | _, _ => false

/-- A supplier image entry: either a raw URL string or an object with an
optional url field. -/
inductive ImageEntry
  | rawUrl (s : String)
  | obj (url : Option String)
  deriving DecidableEq, Repr

/-- Result of the JS expression img.url OR-ELSE img when building a Woo
image source: a string when a truthy one is available, otherwise the
original object. -/
inductive WooImageSrc
  | fromUrl (s : String)
  | fromObj (url : Option String)
  deriving DecidableEq, Repr

def imageSrc : ImageEntry → WooImageSrc
  | .rawUrl s => .fromUrl s
  | .obj u => if optTruthy u then .fromUrl (u.getD "") else .fromObj u

structure PriceBreak where
  qty : Nat
  price : ℚ
  deriving DecidableEq, Repr

structure BasePrice where
  breaks : Option (List PriceBreak)
  deriving DecidableEq, Repr

structure PriceGroup where
  base_price : Option BasePrice
  deriving DecidableEq, Repr

structure Prices where
  price_groups : Option (List PriceGroup)
  deriving DecidableEq, Repr

/-- The optional chain prices to price_groups to first group to
base_price to breaks to first break. -/
def firstPriceBreak (prices : Option Prices) : Option PriceBreak :=
  ((((prices.bind Prices.price_groups).bind List.head?).bind PriceGroup.base_price).bind BasePrice.breaks).bind List.head?

/-- Base price of a price chain: the first break price when present,
else 0. -/
def basePriceOf (prices : Option Prices) : ℚ :=
  match firstPriceBreak prices with
  | some b => b.price
  | none => 0

structure Variant where
  sku : Option String
  attrs : List (String × String)
  prices : Option Prices
  deriving DecidableEq, Repr

structure Categorisation where
  supplier_category : Option String
  deriving DecidableEq, Repr

structure SupplierInfo where
  supplier : Option String
  deriving DecidableEq, Repr

/-- A supplier catalog product as fetched from the Promodata API. -/
structure Product where
  name : Option String
  code : Option String
  description_html : Option String
  description : Option String
  short_description : Option String
  images : Option (List ImageEntry)
  categorisation : Option Categorisation
  supplier : Option SupplierInfo
  supplier_name : Option String
  variants : Option (List Variant)
  prices : Option Prices
  deriving DecidableEq, Repr

/-- The product value a rule examines: the supplier category for
category rules, else supplier.supplier with supplier_name as fallback. -/
def extractProductValue (product : Product) (field : String) : Option String :=
  if field == "category" then product.categorisation.bind Categorisation.supplier_category
  else jsOrStr (product.supplier.bind SupplierInfo.supplier) product.supplier_name

/-- Whether one conditional rule applies to a product. -/
def ruleMatches (product : Product) (r : Rule) : Bool :=
  checkCondition (extractProductValue product r.conditionField) r.conditionOperator r.conditionValue

/-- The for-loop of getApplicableMargin over the conditional rules. -/
def findMarginLoop (product : Product) (rules : Rules) : List Rule → ℚ
  | [] => rules.defaultMargin
  | r :: rest => if ruleMatches product r then r.margin else findMarginLoop product rules rest

/-- getApplicableMargin: the first matching conditional rule wins, else
the default margin. -/
def getApplicableMargin (product : Product) (rules : Rules) : ℚ :=
  findMarginLoop product rules rules.conditionalRules

structure WooAttribute where
  name : String
  position : Nat
  visible : Bool
  variation : Bool
  options : List String
  deriving DecidableEq, Repr

structure WooProductData where
  name : Option String
  sku : Option String
  description : Option String
  short_description : String
  images : List WooImageSrc
  categories : List String
  type : String
  regular_price : Option String
  attributes : List WooAttribute
  deriving DecidableEq, Repr

structure WooVariation where
  sku : Option String
  regular_price : String
  attributes : List (String × String)
  deriving DecidableEq, Repr

structure TransformResult where
  productData : WooProductData
  variationsData : List WooVariation
  deriving DecidableEq, Repr

/-- Insertion into the insertion-ordered attribute map, modelling the JS
Map of Sets: a new name is appended at the end, a value is appended to
the set of its name when not already present. -/
def insertVal : List (String × List String) → String → String → List (String × List String)
  | [], n, v => [(n, [v])]
  | (k, vs) :: rest, n, v =>
    if k = n then (k, if v ∈ vs then vs else vs ++ [v]) :: rest
    else (k, vs) :: insertVal rest n v

/-- Fold a sequence of attribute observations into the map. -/
def foldIns (m : List (String × List String)) (seq : List (String × String)) : List (String × List String) :=
  seq.foldl (fun acc p => insertVal acc p.1 p.2) m

/-- The attributesMap built by the variable path of the transformer. -/
def attributesMapOf (variants : List Variant) : List (String × List String) :=
  variants.foldl (fun acc v => v.attrs.foldl (fun acc2 p => insertVal acc2 p.1 p.2) acc) []

/-- transformProductForWoo. The JS code calls product.images.map before
anything else, so an absent images field makes the transformer throw,
modelled as an error result. -/
def transformProductForWoo (product : Product) (jobSettings : Settings) : Except String TransformResult :=
  match product.images with
  | none => Except.error "Cannot read properties of undefined (reading map)"
  | some imgs =>
    let hasVariants : Bool :=
      match product.variants with
      | some vs => decide (vs.length > 1)
      | none => false
    let cats : List String :=
      match product.categorisation.bind Categorisation.supplier_category with
      | some c => if c == "" then [] else [c]
      | none => []
    let common : WooProductData :=
      { name := product.name
      , sku := product.code
      , description := jsOrStr product.description_html product.description
      , short_description := product.short_description.getD ""
      , images := imgs.map imageSrc
      , categories := cats
      , type := "simple"
      , regular_price := none
      , attributes := [] }
    if !hasVariants then
      let basePrice := basePriceOf product.prices
      let margin := getApplicableMargin product jobSettings.rules
      let salePrice := basePrice * (1 + margin / 100)
      Except.ok
        { productData := { common with type := "simple", regular_price := some (toFixed2 salePrice) }
        , variationsData := [] }
    else
      let vs := product.variants.getD []
      let m := attributesMapOf vs
      let wooAttributes := m.enum.map (fun p =>
        { name := p.2.1, position := p.1, visible := true, variation := true, options := p.2.2 : WooAttribute })
      let variationsData := vs.map (fun v =>
        { sku := v.sku
        , regular_price := toFixed2 (basePriceOf v.prices * (1 + getApplicableMargin product jobSettings.rules / 100))
        , attributes := v.attrs : WooVariation })
      Except.ok
        { productData := { common with type := "variable", attributes := wooAttributes }
        , variationsData := variationsData }

structure LogEntry where
  timestamp : String
  itemId : String
  status : String
  message : String
  deriving DecidableEq, Repr

structure WooParent where
  id : Option Nat
  deriving DecidableEq, Repr

/-- Outcomes of the external calls made while processing one product
code, plus the timestamp stamped on its log entry. -/
structure ItemEnv where
  fetch : Except String Product
  wooCreate : Except String WooParent
  wooVariations : Except String Unit
  timestamp : String
  deriving DecidableEq, Repr

/-- The supplier_name enrichment applied before transformation. -/
def enrich (p : Product) : Product :=
  { p with supplier_name := p.supplier.bind SupplierInfo.supplier }

/-- JS truthiness of the optional numeric parent id. -/
def idTruthy : Option Nat → Bool
  | none => false
  | some n => !(n == 0)

/-- The try block body for one product code: fetch, enrich, transform,
push; yields the success log message or the thrown error message. -/
def tryItem (env : ItemEnv) (jobSettings : Settings) : Except String String :=
  env.fetch.bind (fun p0 =>
    let p := enrich p0
    (transformProductForWoo p jobSettings).bind (fun tr =>
      if tr.variationsData.length == 0 then
        env.wooCreate.map (fun _ =>
          "Synced simple product \"" ++ jsShow tr.productData.name ++ "\" successfully.")
      else
        env.wooCreate.bind (fun parent =>
          (if idTruthy parent.id && decide (tr.variationsData.length > 0) then env.wooVariations
           else Except.ok ()).map (fun _ =>
            "Synced variable product \"" ++ jsShow tr.productData.name ++ "\" with "
              ++ toString tr.variationsData.length ++ " variations."))))

/-- The log entry recorded for one product code. -/
def processItem (code : String) (env : ItemEnv) (jobSettings : Settings) : LogEntry :=
  match tryItem env jobSettings with
  | Except.ok msg => { timestamp := env.timestamp, itemId := code, status := "success", message := msg }
  | Except.error e => { timestamp := env.timestamp, itemId := code, status := "failed", message := "Error: " ++ e }

structure ApiConfig where
  url : String
  token : String
  deriving DecidableEq, Repr

structure WooConfig where
  url : String
  key : String
  secret : String
  deriving DecidableEq, Repr

/-- A job record as stored in the in-memory jobs map. -/
structure Job where
  id : String
  kind : String
  status : String
  total : Nat
  done : Nat
  started : String
  error : Option String
  logs : List LogEntry
  productCodes : List String
  apiConfig : ApiConfig
  wooConfig : WooConfig
  settings : Settings
  ended : Option String
  deriving DecidableEq, Repr

/-- The failure summary written to the error field when an item fails. -/
def itemFailMsg : String := "One or more items failed to sync."

/-- One iteration of the runner loop: record the log entry, set the
error flag on failure, increment done. -/
def stepJob (j : Job) (code : String) (env : ItemEnv) : Job :=
  let entry := processItem code env j.settings
  { j with
    error := if entry.status == "failed" then some itemFailMsg else j.error
  , logs := j.logs ++ [entry]
  , done := j.done + 1 }

/-- The loop of runRealSyncJob as a fold over codes and environments. -/
def runFold (j : Job) (items : List (String × ItemEnv)) : Job :=
  items.foldl (fun a ce => stepJob a ce.1 ce.2) j

/-- The sequence of job states observable after each processed item. -/
def runItems (j : Job) : List (String × ItemEnv) → List Job
  | [] => []
  | (c, e) :: rest =>
    let j2 := stepJob j c e
    j2 :: runItems j2 rest

/-- End of runRealSyncJob: terminal status from the sticky error flag,
and the end timestamp. -/
def finishJob (j : Job) (endTime : String) : Job :=
  { j with status := if j.error.isSome then "failed" else "completed", ended := some endTime }

/-- The whole run: set status running, process every product code with
its item environment, then finish. -/
def runRealSyncJob (j : Job) (envs : List ItemEnv) (endTime : String) : Job :=
  finishJob (runFold { j with status := "running" } (j.productCodes.zip envs)) endTime

/-- Every job state a status request can observe from dispatch to after
termination. -/
def jobTrace (j : Job) (envs : List ItemEnv) (endTime : String) : List Job :=
  let jr := { j with status := "running" }
  (jr :: runItems jr (j.productCodes.zip envs)) ++ [runRealSyncJob j envs endTime]

/-- The module-level mutable server state: global settings, the jobs
map in insertion order, and the job id counter. -/
structure ServerState where
  settings : Settings
  jobs : List (String × Job)
  jobCounter : Nat
  deriving DecidableEq, Repr

/-- POST /api/settings: shallow-merge the body into global settings. -/
def postSettingsHandler (s : ServerState) (p : SettingsPatch) : ServerState :=
  { s with settings := mergeSettings s.settings p }

/-- Property lookup in the jobs map. -/
def lookupJob (s : ServerState) (id : String) : Option Job :=
  (s.jobs.find? (fun e => e.1 == id)).map Prod.snd

/-- JS padStart with width 5 and pad character zero. -/
def padStart5 (s : String) : String :=
  if s.length ≥ 5 then s else String.mk (List.replicate (5 - s.length) '0') ++ s

def createJobId (counter : Nat) : String := "JOB-" ++ padStart5 (toString counter)

/-- The request body of POST /api/woo/start-sync. -/
structure StartSyncBody where
  kind : String
  productCodes : Option (List String)
  apiConfig : Option ApiConfig
  wooConfig : Option WooConfig
  settings : Option Settings
  deriving DecidableEq, Repr

/-- Result of the start-sync handler: the new server state, the
response (an error status and message, or the created job whose 201
body keys are given by startSyncResponseKeys), and the job id handed to
the delayed dispatch when one was registered. -/
structure StartSyncResult where
  state : ServerState
  response : Except (Nat × String) Job
  scheduled : Option String
  deriving DecidableEq, Repr

/-- POST /api/woo/start-sync. -/
def startSyncHandler (s : ServerState) (b : StartSyncBody) (now : String) : StartSyncResult :=
  let total := (b.productCodes.map List.length).getD 0
  match b.apiConfig, b.wooConfig, b.settings with
  | some ac, some wc, some st =>
    if total == 0 then
      { state := s, response := Except.error (400, "No products selected for sync."), scheduled := none }
    else
      let id := createJobId s.jobCounter
      let job : Job :=
        { id := id, kind := b.kind, status := "queued", total := total, done := 0
        , started := now, error := none, logs := [], productCodes := b.productCodes.getD []
        , apiConfig := ac, wooConfig := wc, settings := st, ended := none }
      { state := { s with jobs := s.jobs ++ [(id, job)], jobCounter := s.jobCounter + 1 }
      , response := Except.ok job
      , scheduled := some id }
  | _, _, _ =>
    { state := s
    , response := Except.error (400, "API, WooCommerce, and Settings configurations are required to start a sync.")
    , scheduled := none }

/-- Insertion-ordered own keys of the JS job object: the literal keys of
the newJob object, with ended appended once the run has finished. -/
def jobObjectKeys (j : Job) : List String :=
  ["id", "kind", "status", "total", "done", "started", "error", "logs",
   "productCodes", "apiConfig", "wooConfig", "settings"] ++
  (if j.ended.isSome then ["ended"] else [])

/-- Keys of the 201 body: rest-destructuring removes only the two config
objects and the settings snapshot. -/
def startSyncResponseKeys (j : Job) : List String :=
  (jobObjectKeys j).filter (fun k => !(["apiConfig", "wooConfig", "settings"].contains k))

/-- Keys of the GET job-status body: destructuring also removes logs and
productCodes. -/
def jobStatusResponseKeys (j : Job) : List String :=
  (jobObjectKeys j).filter (fun k => !(["logs", "productCodes", "apiConfig", "wooConfig", "settings"].contains k))

/-- The delayed dispatch registered by the handler: look the job up in
the current state, mark it running, run it to completion. -/
def runJobFromState (s : ServerState) (id : String) (envs : List ItemEnv) (endTime : String) : Option Job :=
  (lookupJob s id).map (fun j => runRealSyncJob j envs endTime)

/-- A sequence of POST /api/settings requests applied in order. -/
def applyPatches (s : ServerState) (ps : List SettingsPatch) : ServerState :=
  ps.foldl postSettingsHandler s

/-- Spec-side: keep the first occurrence of each element, in order; the
seen accumulator holds elements already emitted. -/
def firstSeen (seen : List String) : List String → List String
  | [] => []
  | x :: xs => if x ∈ seen then firstSeen seen xs else x :: firstSeen (x :: seen) xs

/-- Spec-side: distinct elements in first-seen order. -/
def dedupFirst (l : List String) : List String := firstSeen [] l

/-- Spec-side: the values observed for one attribute name, in
observation order. -/
def valsFor (n : String) (seq : List (String × String)) : List String :=
  seq.filterMap (fun p => if p.1 = n then some p.2 else none)

/-- Spec-side: first-match lookup of the option set stored for an
attribute name. -/
def lookupVals : List (String × List String) → String → List String
  | [], _ => []
  | (k, vs) :: rest, n => if k = n then vs else lookupVals rest n

/-- The number of variants of a product, treating an absent variants
field as zero. -/
def numVariants (p : Product) : Nat := (p.variants.map List.length).getD 0

/-- Spec-side: adjacent states have non-decreasing done counters. -/
def MonotoneDone : List Job → Prop
  | [] => True
  | [_] => True
  | a :: b :: rest => a.done ≤ b.done ∧ MonotoneDone (b :: rest)

/-- Spec-side: an error, once present, is still present at every later
state. -/
def ErrorSticky : List Job → Prop
  | [] => True
  | [_] => True
  | a :: b :: rest => (a.error.isSome → b.error.isSome) ∧ ErrorSticky (b :: rest)

/-- Example server state at process start. -/
def c8State : ServerState :=
  { settings := defaultSettings, jobs := [], jobCounter := 1 }

/-- Example start-sync body with an empty product code list. -/
def c8Body : StartSyncBody :=
  { kind := "woo-sync"
  , productCodes := some []
  , apiConfig := some { url := "https://api.promodata.example", token := "tok" }
  , wooConfig := some { url := "https://shop.example", key := "ck", secret := "cs" }
  , settings := some defaultSettings }

/-- Example fetched product whose images field is absent. -/
def c10Product : Product :=
  { name := some "Widget"
  , code := some "W1"
  , description_html := none
  , description := some "plain"
  , short_description := none
  , images := none
  , categorisation := none
  , supplier := some { supplier := some "Acme" }
  , supplier_name := none
  , variants := none
  , prices := none }

def c10Settings : Settings := defaultSettings

/-- Example item environment whose catalog fetch succeeds with
c10Product. -/
def c10Env : ItemEnv :=
  { fetch := Except.ok c10Product
  , wooCreate := Except.ok { id := some 5 }
  , wooVariations := Except.ok ()
  , timestamp := "2024-06-01T00:00:00.000Z" }

/-- Example product that transforms successfully. -/
def cOkProduct : Product :=
  { name := some "Pen"
  , code := some "P100"
  , description_html := some "<p>d</p>"
  , description := none
  , short_description := none
  , images := some [ImageEntry.rawUrl "https://img.example/p.png"]
  , categorisation := some { supplier_category := some "Pens" }
  , supplier := some { supplier := some "Acme" }
  , supplier_name := none
  , variants := none
  , prices := some { price_groups := some [{ base_price := some { breaks := some [{ qty := 1, price := 10 }] } }] } }

/-- Example job record as created by a submission of two codes. -/
def cRunJob : Job :=
  { id := "JOB-00001"
  , kind := "woo-sync"
  , status := "queued"
  , total := 2
  , done := 0
  , started := "2024-06-01T00:00:00.000Z"
  , error := none
  , logs := []
  , productCodes := ["P100", "P200"]
  , apiConfig := { url := "https://api.promodata.example", token := "tok" }
  , wooConfig := { url := "https://shop.example", key := "ck", secret := "cs" }
  , settings := defaultSettings
  , ended := none }

/-- Example item environments: the first code succeeds, the second has
a failing catalog fetch. -/
def cRunEnvs : List ItemEnv :=
  [ { fetch := Except.ok cOkProduct
    , wooCreate := Except.ok { id := some 7 }
    , wooVariations := Except.ok ()
    , timestamp := "2024-06-01T00:00:01.000Z" }
  , { fetch := Except.error "Promodata API returned status 500"
    , wooCreate := Except.ok { id := some 8 }
    , wooVariations := Except.ok ()
    , timestamp := "2024-06-01T00:00:02.000Z" } ]

/-- Example variants sharing attribute names and one duplicate value. -/
def c7Variants : List Variant :=
  [ { sku := some "V1"
    , attrs := [("Colour", "Red"), ("Size", "S")]
    , prices := some { price_groups := some [{ base_price := some { breaks := some [{ qty := 1, price := 10 }] } }] } }
  , { sku := some "V2"
    , attrs := [("Colour", "Blue"), ("Size", "S")]
    , prices := none } ]

/-- Example variable product with two variants. -/
def c7Product : Product :=
  { name := some "Shirt"
  , code := some "S100"
  , description_html := none
  , description := some "tee"
  , short_description := some "tee"
  , images := some [ImageEntry.obj (some "https://img.example/s.png")]
  , categorisation := some { supplier_category := some "Apparel" }
  , supplier := some { supplier := some "Acme" }
  , supplier_name := none
  , variants := some c7Variants
  , prices := none }

/-- Example state and valid body for exercising the submission handler. -/
def c1State : ServerState :=
  { settings := defaultSettings, jobs := [], jobCounter := 1 }

def c1Body : StartSyncBody :=
  { kind := "woo-sync"
  , productCodes := some ["P100"]
  , apiConfig := some { url := "https://api.promodata.example", token := "tok" }
  , wooConfig := some { url := "https://shop.example", key := "ck", secret := "cs" }
  , settings := some defaultSettings }

/-- The job record the submission above creates. -/
def c1Job : Job :=
  { id := "JOB-00001"
  , kind := "woo-sync"
  , status := "queued"
  , total := 1
  , done := 0
  , started := "2024-06-01T00:00:00.000Z"
  , error := none
  , logs := []
  , productCodes := ["P100"]
  , apiConfig := { url := "https://api.promodata.example", token := "tok" }
  , wooConfig := { url := "https://shop.example", key := "ck", secret := "cs" }
  , settings := defaultSettings
  , ended := none }

def c9State : ServerState :=
  { settings := defaultSettings, jobs := [], jobCounter := 1 }

def c9Body : StartSyncBody :=
  { kind := "woo-sync"
  , productCodes := some ["A1"]
  , apiConfig := some { url := "https://api.promodata.example", token := "tok" }
  , wooConfig := some { url := "https://shop.example", key := "ck", secret := "cs" }
  , settings := some defaultSettings }

def c9Job : Job :=
  { id := "JOB-00001"
  , kind := "woo-sync"
  , status := "queued"
  , total := 1
  , done := 0
  , started := "2024-06-02T00:00:00.000Z"
  , error := none
  , logs := []
  , productCodes := ["A1"]
  , apiConfig := { url := "https://api.promodata.example", token := "tok" }
  , wooConfig := { url := "https://shop.example", key := "ck", secret := "cs" }
  , settings := defaultSettings
  , ended := none }

/-- A later settings update that changes the default margin. -/
def c9Patch : SettingsPatch :=
  { rules := some { defaultMargin := 99, conditionalRules := [] }
  , mappings := none
  , notifications := none
  , advanced := none }

/-! ### Verification -/

/-- C4: getApplicableMargin returns the margin of the first rule in list
order whose condition holds on the product, and the default margin when
no rule matches. -/
theorem getApplicableMargin_first_match (product : Product) (rules : Rules) :
    getApplicableMargin product rules =
      match rules.conditionalRules.find? (fun r => ruleMatches product r) with
      | some r => r.margin
      | none => rules.defaultMargin := by
  unfold getApplicableMargin
  induction rules.conditionalRules with
  | nil => rfl
  | cons r rest ih =>
    rw [findMarginLoop, List.find?]
    cases h : ruleMatches product r <;> simp [h, ih]

/-- lowerStr maps the empty string and only the empty string to the
empty string. -/
theorem lowerStr_eq_empty_iff (s : String) : lowerStr s = "" ↔ s = "" := by
  cases s with
  | mk data =>
    constructor
    · intro h
      have h2 : data.map Char.toLower = [] := congrArg String.data h
      have h3 : data = [] := List.map_eq_nil_iff.mp h2
      rw [h3]
    · intro h
      rw [h]
      rfl

/-- C5: condition evaluation is trivially false when either the product
value or the rule value is absent or empty, under every operator
including the negative ones; and it only consults the two values
through their lowercase images, so it is case-insensitive. -/
theorem checkCondition_empty_and_case :
    (∀ (op : String) (pv rv : Option String),
        pv = none ∨ pv = some "" ∨ rv = none ∨ rv = some "" →
        checkCondition pv op rv = false) ∧
    (∀ (op a b a2 b2 : String),
        lowerStr a = lowerStr a2 → lowerStr b = lowerStr b2 →
        checkCondition (some a) op (some b) = checkCondition (some a2) op (some b2)) := by
  constructor
  · intro op pv rv h
    rcases h with rfl | rfl | rfl | rfl
    · rfl
    · cases rv with
      | none => rfl
      | some r => simp [checkCondition]
    · cases pv with
      | none => rfl
      | some q => simp [checkCondition]
    · cases pv with
      | none => rfl
      | some q => simp [checkCondition]
  · intro op a b a2 b2 h1 h2
    have ea : a = "" ↔ a2 = "" := by
      rw [← lowerStr_eq_empty_iff, ← lowerStr_eq_empty_iff a2, h1]
    have eb : b = "" ↔ b2 = "" := by
      rw [← lowerStr_eq_empty_iff, ← lowerStr_eq_empty_iff b2, h2]
    by_cases ha : a = ""
    · simp [checkCondition, ha, ea.mp ha]
    · by_cases hb : b = ""
      · simp [checkCondition, hb, eb.mp hb]
      · have ha2 : ¬a2 = "" := fun c => ha (ea.mpr c)
        have hb2 : ¬b2 = "" := fun c => hb (eb.mpr c)
        have g1 : (a == "" || b == "") = false := by simp [ha, hb]
        have g2 : (a2 == "" || b2 == "") = false := by simp [ha2, hb2]
        simp [checkCondition, g1, g2, h1, h2]

/-- Witness for C5: the spec example, PENS matches pens under is, and an
absent product value refutes is_not. -/
theorem checkCondition_empty_and_case_witness :
    checkCondition none "is_not" (some "x") = false ∧
    checkCondition (some "PENS") "is" (some "pens") = checkCondition (some "pens") "is" (some "pens") := by
  constructor
  · exact checkCondition_empty_and_case.1 "is_not" none (some "x") (Or.inl rfl)
  · exact checkCondition_empty_and_case.2 "is" "PENS" "pens" "pens" "pens" (by decide) rfl

/-- C8: a start-sync request with an absent or empty productCodes list,
or a missing apiConfig, wooConfig or settings, gets a 400 error, leaves
the job store and counter unchanged, and schedules no job. -/
theorem startSync_rejects_invalid (s : ServerState) (b : StartSyncBody) (now : String)
    (h : b.productCodes = none ∨ b.productCodes = some [] ∨
         b.apiConfig = none ∨ b.wooConfig = none ∨ b.settings = none) :
    (startSyncHandler s b now).state = s ∧
    (∃ msg, (startSyncHandler s b now).response = Except.error (400, msg)) ∧
    (startSyncHandler s b now).scheduled = none := by
  obtain ⟨kind, pcs, oac, owc, ost⟩ := b
  rcases oac with _ | ac <;> rcases owc with _ | wc <;> rcases ost with _ | st <;>
    try exact ⟨rfl, ⟨_, rfl⟩, rfl⟩
  rcases h with h | h | h | h | h
  · subst h; exact ⟨rfl, ⟨_, rfl⟩, rfl⟩
  · subst h; exact ⟨rfl, ⟨_, rfl⟩, rfl⟩
  · exact absurd h (by simp)
  · exact absurd h (by simp)
  · exact absurd h (by simp)

/-- Witness for C8: an empty product code list leaves the store
untouched and schedules nothing. -/
theorem startSync_rejects_invalid_witness :
    (startSyncHandler c8State c8Body "2024-06-01T00:00:00.000Z").state = c8State ∧
    (startSyncHandler c8State c8Body "2024-06-01T00:00:00.000Z").scheduled = none :=
  ⟨(startSync_rejects_invalid c8State c8Body "2024-06-01T00:00:00.000Z" (Or.inr (Or.inl rfl))).1,
   (startSync_rejects_invalid c8State c8Body "2024-06-01T00:00:00.000Z" (Or.inr (Or.inl rfl))).2.2⟩

/-- C10: the transformer is partial in its images field: a fetched
product without one makes transformProductForWoo throw, and the job
loop records the item as a failed log entry even though the catalog
fetch succeeded. -/
theorem transform_requires_images (p : Product) (s : Settings) (hp : p.images = none) :
    (∃ msg, transformProductForWoo p s = Except.error msg) ∧
    (∀ code env, env.fetch = Except.ok p → (processItem code env s).status = "failed") := by
  have h2 : (enrich p).images = none := hp
  have htr : transformProductForWoo (enrich p) s
      = Except.error "Cannot read properties of undefined (reading map)" := by
    rw [transformProductForWoo.eq_def, h2]
  constructor
  · refine ⟨"Cannot read properties of undefined (reading map)", ?_⟩
    rw [transformProductForWoo.eq_def, hp]
  · intro code env hf
    simp [processItem, tryItem, hf, htr, Except.bind]

/-- Witness for C10: a concrete fetched product with no images field is
logged as failed. -/
theorem transform_requires_images_witness :
    (processItem "CODE-1" c10Env c10Settings).status = "failed" :=
  (transform_requires_images c10Product c10Settings rfl).2 "CODE-1" c10Env rfl

@[simp] theorem stepJob_total (j : Job) (c : String) (e : ItemEnv) :
    (stepJob j c e).total = j.total := rfl

@[simp] theorem stepJob_done (j : Job) (c : String) (e : ItemEnv) :
    (stepJob j c e).done = j.done + 1 := rfl

@[simp] theorem stepJob_settings (j : Job) (c : String) (e : ItemEnv) :
    (stepJob j c e).settings = j.settings := rfl

@[simp] theorem stepJob_status (j : Job) (c : String) (e : ItemEnv) :
    (stepJob j c e).status = j.status := rfl

@[simp] theorem stepJob_logs (j : Job) (c : String) (e : ItemEnv) :
    (stepJob j c e).logs = j.logs ++ [processItem c e j.settings] := rfl

theorem stepJob_error (j : Job) (c : String) (e : ItemEnv) :
    (stepJob j c e).error =
      if (processItem c e j.settings).status == "failed" then some itemFailMsg else j.error := rfl

theorem runFold_cons (j : Job) (c : String) (e : ItemEnv) (rest : List (String × ItemEnv)) :
    runFold j ((c, e) :: rest) = runFold (stepJob j c e) rest := rfl

theorem runFold_done (items : List (String × ItemEnv)) :
    ∀ j : Job, (runFold j items).done = j.done + items.length := by
  induction items with
  | nil => intro j; rfl
  | cons ce rest ih =>
    obtain ⟨c, e⟩ := ce
    intro j
    rw [runFold_cons, ih]
    simp
    omega

theorem runFold_total (items : List (String × ItemEnv)) :
    ∀ j : Job, (runFold j items).total = j.total := by
  induction items with
  | nil => intro j; rfl
  | cons ce rest ih =>
    obtain ⟨c, e⟩ := ce
    intro j
    rw [runFold_cons, ih]
    rfl

theorem runFold_logs (items : List (String × ItemEnv)) :
    ∀ j : Job, (runFold j items).logs =
      j.logs ++ items.map (fun ce => processItem ce.1 ce.2 j.settings) := by
  induction items with
  | nil => intro j; simp [runFold]
  | cons ce rest ih =>
    obtain ⟨c, e⟩ := ce
    intro j
    rw [runFold_cons, ih]
    simp

theorem runFold_error (items : List (String × ItemEnv)) :
    ∀ j : Job, (runFold j items).error =
      if (items.map (fun ce => processItem ce.1 ce.2 j.settings)).any
           (fun en => en.status == "failed")
      then some itemFailMsg else j.error := by
  induction items with
  | nil => intro j; rfl
  | cons ce rest ih =>
    obtain ⟨c, e⟩ := ce
    intro j
    rw [runFold_cons, ih]
    simp only [stepJob_settings, stepJob_error, List.map_cons, List.any_cons]
    by_cases hthis : ((processItem c e j.settings).status == "failed") = true
    · simp [hthis]
    · rw [Bool.not_eq_true] at hthis
      simp only [hthis, Bool.false_eq_true, if_false, Bool.false_or]

theorem finishJob_done (j : Job) (t : String) : (finishJob j t).done = j.done := rfl

theorem finishJob_total (j : Job) (t : String) : (finishJob j t).total = j.total := rfl

theorem finishJob_logs (j : Job) (t : String) : (finishJob j t).logs = j.logs := rfl

theorem finishJob_error (j : Job) (t : String) : (finishJob j t).error = j.error := rfl

/-- Progress invariants of every state reached during the item loop. -/
theorem runItems_mem_inv (items : List (String × ItemEnv)) :
    ∀ j : Job, j.logs.length = j.done → j.done + items.length ≤ j.total →
      ∀ s ∈ runItems j items, s.done ≤ s.total ∧ s.logs.length = s.done := by
  induction items with
  | nil => intro j _ _ s hs; simp [runItems] at hs
  | cons ce rest ih =>
    obtain ⟨c, e⟩ := ce
    intro j hlog hbound s hs
    simp only [runItems, List.mem_cons] at hs
    rcases hs with rfl | hs
    · refine ⟨?_, ?_⟩
      · simp only [stepJob_done, stepJob_total]
        simp at hbound
        omega
      · simp [hlog]
    · refine ih (stepJob j c e) ?_ ?_ s hs
      · simp [hlog]
      · simp only [stepJob_done, stepJob_total]
        simp at hbound
        omega

/-- The done counter never decreases along the observable trace. -/
theorem monotoneDone_runItems (items : List (String × ItemEnv)) :
    ∀ (j : Job) (t : String),
      MonotoneDone ((j :: runItems j items) ++ [finishJob (runFold j items) t]) := by
  induction items with
  | nil => intro j t; exact ⟨Nat.le_refl _, trivial⟩
  | cons ce rest ih =>
    obtain ⟨c, e⟩ := ce
    intro j t
    exact ⟨Nat.le_succ j.done, ih (stepJob j c e) t⟩

/-- A present error flag stays present along the observable trace. -/
theorem errorSticky_runItems (items : List (String × ItemEnv)) :
    ∀ (j : Job) (t : String),
      ErrorSticky ((j :: runItems j items) ++ [finishJob (runFold j items) t]) := by
  induction items with
  | nil => intro j t; exact ⟨fun h => h, trivial⟩
  | cons ce rest ih =>
    obtain ⟨c, e⟩ := ce
    intro j t
    refine ⟨?_, ih (stepJob j c e) t⟩
    intro h
    rw [stepJob_error]
    split
    · rfl
    · exact h

/-- C2: at every observation point of a run started from a freshly
created job record, done never exceeds total, the log length equals
done, and done is monotonically non-decreasing along the trace. -/
theorem job_progress_invariants (j : Job) (envs : List ItemEnv) (endTime : String)
    (h0 : j.done = 0) (h1 : j.logs = []) (h2 : j.total = j.productCodes.length) :
    (∀ s ∈ jobTrace j envs endTime, s.done ≤ s.total ∧ s.logs.length = s.done) ∧
    MonotoneDone (jobTrace j envs endTime) := by
  constructor
  · intro st hst
    have hzip : (j.productCodes.zip envs).length ≤ j.productCodes.length := by
      rw [List.length_zip]
      exact Nat.min_le_left _ _
    simp only [jobTrace, List.mem_append, List.mem_cons, List.mem_singleton,
      List.not_mem_nil, or_false] at hst
    rcases hst with (rfl | hst) | rfl
    · constructor
      · show j.done ≤ j.total
        rw [h0]
        exact Nat.zero_le _
      · show j.logs.length = j.done
        rw [h0, h1]
        rfl
    · refine runItems_mem_inv _ { j with status := "running" } ?_ ?_ st hst
      · show j.logs.length = j.done
        rw [h0, h1]
        rfl
      · show j.done + (j.productCodes.zip envs).length ≤ j.total
        omega
    · constructor
      · show (runRealSyncJob j envs endTime).done ≤ (runRealSyncJob j envs endTime).total
        simp only [runRealSyncJob, finishJob_done, finishJob_total, runFold_done,
          runFold_total]
        show j.done + (j.productCodes.zip envs).length ≤ j.total
        omega
      · show (runRealSyncJob j envs endTime).logs.length = (runRealSyncJob j envs endTime).done
        simp only [runRealSyncJob, finishJob_done, finishJob_logs, runFold_done, runFold_logs]
        show (j.logs ++ _).length = j.done + _
        rw [h0, h1]
        simp
  · exact monotoneDone_runItems (j.productCodes.zip envs) { j with status := "running" } endTime

/-- Witness for C2: the two-item example run. -/
theorem job_progress_invariants_witness :
    MonotoneDone (jobTrace cRunJob cRunEnvs "2024-06-01T00:00:03.000Z") :=
  (job_progress_invariants cRunJob cRunEnvs "2024-06-01T00:00:03.000Z" rfl rfl rfl).2

/-- C3: the terminal status is failed exactly when some item logged a
failed outcome; the error flag, once set, is never cleared at any later
observation point; and the terminal status is fully determined by the
error flag. -/
theorem finishJob_status (j : Job) (t : String) :
    (finishJob j t).status = if j.error.isSome then "failed" else "completed" := rfl

/-- The terminal status is failed exactly when some recorded log entry
is failed, for a run started with no error and no logs. -/
theorem final_status_iff (jr : Job) (items : List (String × ItemEnv)) (t : String)
    (he : jr.error = none) (hl : jr.logs = []) :
    ((finishJob (runFold jr items) t).status = "failed" ↔
      ∃ en ∈ (finishJob (runFold jr items) t).logs, en.status = "failed") := by
  rw [finishJob_status, finishJob_logs, runFold_error items jr, runFold_logs items jr, he, hl]
  simp only [List.nil_append]
  by_cases hany : ((items.map fun ce => processItem ce.1 ce.2 jr.settings).any
      fun en => en.status == "failed") = true
  · rw [if_pos hany]
    obtain ⟨en, hm, hp⟩ := List.any_eq_true.mp hany
    exact ⟨fun _ => ⟨en, hm, by simpa using hp⟩, fun _ => by simp⟩
  · rw [if_neg hany]
    simp only [Option.isSome_none, Bool.false_eq_true, if_false]
    constructor
    · intro hcontra
      exact absurd hcontra (by decide)
    · intro hex
      obtain ⟨en, hm, hp⟩ := hex
      exact absurd (List.any_eq_true.mpr ⟨en, hm, by simpa using hp⟩) hany

/-- C3: the terminal status is failed exactly when some item logged a
failed outcome; the error flag, once set, is never cleared at any later
observation point; and the terminal status is fully determined by the
error flag. -/
theorem job_failed_iff_item_failed (j : Job) (envs : List ItemEnv) (endTime : String)
    (herr : j.error = none) (hlogs : j.logs = []) :
    ((runRealSyncJob j envs endTime).status = "failed" ↔
      ∃ en ∈ (runRealSyncJob j envs endTime).logs, en.status = "failed") ∧
    ((runRealSyncJob j envs endTime).status =
      if (runRealSyncJob j envs endTime).error.isSome then "failed" else "completed") ∧
    ErrorSticky (jobTrace j envs endTime) := by
  refine ⟨final_status_iff { j with status := "running" } (j.productCodes.zip envs) endTime
      herr hlogs, rfl, ?_⟩
  exact errorSticky_runItems (j.productCodes.zip envs) { j with status := "running" } endTime

/-- Witness for C3: the example run with one failing fetch ends failed. -/
theorem job_failed_iff_item_failed_witness :
    (runRealSyncJob cRunJob cRunEnvs "2024-06-01T00:00:03.000Z").status = "failed" :=
  (job_failed_iff_item_failed cRunJob cRunEnvs "2024-06-01T00:00:03.000Z" rfl rfl).1.mpr
    (by decide)

theorem digitChar_isDigit (d : Nat) : (digitChar d).isDigit = true := by
  have hk : d % 10 < 10 := Nat.mod_lt _ (by norm_num)
  unfold digitChar
  generalize hg : d % 10 = k
  rw [hg] at hk
  interval_cases k <;> rfl

theorem strAppend_assoc (a b c : String) : a ++ b ++ c = a ++ (b ++ c) := by
  cases a with
  | mk da =>
    cases b with
    | mk db =>
      cases c with
      | mk dc =>
        show String.mk (da ++ db ++ dc) = String.mk (da ++ (db ++ dc))
        rw [List.append_assoc]

/-- Every toFixed2 output ends in a dot followed by exactly two decimal
digit characters. -/
theorem toFixed2_format (q : ℚ) :
    ∃ w a b, toFixed2 q = w ++ ("." ++ String.mk [a, b]) ∧
      a.isDigit = true ∧ b.isDigit = true := by
  refine ⟨(if q < 0 then "-" else "") ++ toString ((Int.floor (|q| * 100 + 1 / 2)).toNat / 100),
    digitChar ((Int.floor (|q| * 100 + 1 / 2)).toNat / 10),
    digitChar (Int.floor (|q| * 100 + 1 / 2)).toNat,
    ?_, digitChar_isDigit _, digitChar_isDigit _⟩
  simp only [toFixed2]
  rw [strAppend_assoc]

/-- C6: the regular price of a simple product, and of every variation of
a variable product, is the base price (first break of the first price
group, 0 when that chain is absent) marked up by the applicable margin
and rendered with exactly two decimal digits. -/
theorem transform_price_formula (p : Product) (s : Settings) (r : TransformResult)
    (h : transformProductForWoo p s = Except.ok r) :
    (numVariants p ≤ 1 →
      r.productData.regular_price =
        some (toFixed2 (basePriceOf p.prices * (1 + getApplicableMargin p s.rules / 100)))) ∧
    (∀ vs, p.variants = some vs → 2 ≤ vs.length →
      r.variationsData.map WooVariation.regular_price =
        vs.map (fun v => toFixed2 (basePriceOf v.prices * (1 + getApplicableMargin p s.rules / 100)))) ∧
    (∀ q : ℚ, ∃ w a b, toFixed2 q = w ++ ("." ++ String.mk [a, b]) ∧
      a.isDigit = true ∧ b.isDigit = true) := by
  cases himg : p.images with
  | none =>
    rw [transformProductForWoo.eq_def, himg] at h
    exact absurd h (by simp)
  | some imgs =>
    rw [transformProductForWoo.eq_def, himg] at h
    cases hv : p.variants with
    | none =>
      rw [hv] at h
      dsimp only at h
      rw [if_pos (by decide : ((!false) = true))] at h
      have h2 := Except.ok.inj h
      subst h2
      refine ⟨fun _ => rfl, ?_, toFixed2_format⟩
      intro vs hvs
      exact absurd hvs (by simp)
    | some vs =>
      rw [hv] at h
      dsimp only at h
      by_cases hlen : 1 < vs.length
      · have hdec : decide (vs.length > 1) = true := decide_eq_true hlen
        rw [hdec] at h
        rw [if_neg (by decide : ¬((!true) = true))] at h
        have h2 := Except.ok.inj h
        subst h2
        refine ⟨?_, ?_, toFixed2_format⟩
        · intro habs
          have : numVariants p = vs.length := by simp [numVariants, hv]
          omega
        · intro vs2 hvs2 _
          rw [Option.some.injEq] at hvs2
          subst hvs2
          simp only [Option.getD_some]
          rw [List.map_map]
          rfl
      · have hdec : decide (vs.length > 1) = false := decide_eq_false hlen
        rw [hdec] at h
        rw [if_pos (by decide : ((!false) = true))] at h
        have h2 := Except.ok.inj h
        subst h2
        refine ⟨fun _ => rfl, ?_, toFixed2_format⟩
        intro vs2 hvs2 hlen2
        rw [Option.some.injEq] at hvs2
        subst hvs2
        omega

/-- Witness for C6: base price 10 with the default margin 30 renders as
13.00. -/
theorem transform_price_formula_witness :
    ∃ r, transformProductForWoo cOkProduct defaultSettings = Except.ok r ∧
      r.productData.regular_price = some "13.00" := by
  refine ⟨_, rfl, ?_⟩
  have h := (transform_price_formula cOkProduct defaultSettings _ rfl).1 (by decide)
  rw [h]
  have hbase : basePriceOf cOkProduct.prices = 10 := rfl
  have hmargin : getApplicableMargin cOkProduct defaultSettings.rules = 30 := rfl
  rw [hbase, hmargin]
  have harg : (10 : ℚ) * (1 + 30 / 100) = 13 := by norm_num
  rw [harg]
  have hfloor : Int.floor (|(13 : ℚ)| * 100 + 1 / 2) = 1300 := by
    rw [show |(13 : ℚ)| = 13 by norm_num]
    rw [Int.floor_eq_iff]
    constructor
    · push_cast
      norm_num
    · push_cast
      norm_num
  have ht : toFixed2 (13 : ℚ) = "13.00" := by
    simp only [toFixed2, hfloor]
    rw [if_neg (by norm_num : ¬((13 : ℚ) < 0))]
    rfl
  rw [ht]

theorem insertVal_keys (m : List (String × List String)) (n v : String) :
    (insertVal m n v).map Prod.fst =
      if n ∈ m.map Prod.fst then m.map Prod.fst else m.map Prod.fst ++ [n] := by
  induction m with
  | nil => simp [insertVal]
  | cons kv rest ih =>
    obtain ⟨k, vs⟩ := kv
    by_cases hk : k = n
    · subst hk
      simp [insertVal]
    · have hk2 : n ≠ k := fun c => hk c.symm
      by_cases hn : n ∈ rest.map Prod.fst
      · simp [insertVal, hk, ih, hn, hk2]
      · simp [insertVal, hk, ih, hn, hk2]

theorem firstSeen_congr (l : List String) :
    ∀ s1 s2, (∀ x, x ∈ s1 ↔ x ∈ s2) → firstSeen s1 l = firstSeen s2 l := by
  induction l with
  | nil => intro s1 s2 _; rfl
  | cons x xs ih =>
    intro s1 s2 h
    simp only [firstSeen]
    by_cases hx : x ∈ s1
    · rw [if_pos hx, if_pos ((h x).mp hx)]
      exact ih s1 s2 h
    · rw [if_neg hx, if_neg (fun c => hx ((h x).mpr c))]
      have h2 : ∀ y, y ∈ x :: s1 ↔ y ∈ x :: s2 := by
        intro y
        simp [h y]
      rw [ih (x :: s1) (x :: s2) h2]

theorem foldIns_cons (m : List (String × List String)) (n v : String)
    (rest : List (String × String)) :
    foldIns m ((n, v) :: rest) = foldIns (insertVal m n v) rest := rfl

theorem foldIns_keys (seq : List (String × String)) :
    ∀ m, (foldIns m seq).map Prod.fst =
      m.map Prod.fst ++ firstSeen (m.map Prod.fst) (seq.map Prod.fst) := by
  induction seq with
  | nil => intro m; simp [foldIns, firstSeen]
  | cons pr rest ih =>
    obtain ⟨n, v⟩ := pr
    intro m
    rw [foldIns_cons, ih (insertVal m n v), insertVal_keys]
    simp only [List.map_cons, firstSeen]
    by_cases hn : n ∈ m.map Prod.fst
    · rw [if_pos hn, if_pos hn]
    · rw [if_neg hn, if_neg hn]
      rw [List.append_assoc]
      congr 1
      rw [List.singleton_append]
      congr 1
      exact firstSeen_congr _ _ _ (fun y => by simp [or_comm])

theorem lookupVals_insert_same (m : List (String × List String)) (n v : String) :
    lookupVals (insertVal m n v) n =
      if v ∈ lookupVals m n then lookupVals m n else lookupVals m n ++ [v] := by
  induction m with
  | nil => simp [insertVal, lookupVals]
  | cons kv rest ih =>
    obtain ⟨k, vs⟩ := kv
    by_cases hk : k = n
    · subst hk
      simp [insertVal, lookupVals]
    · simp [insertVal, lookupVals, hk, ih]

theorem lookupVals_insert_other (m : List (String × List String)) (n n2 v : String)
    (h : n2 ≠ n) : lookupVals (insertVal m n2 v) n = lookupVals m n := by
  induction m with
  | nil => simp [insertVal, lookupVals, h]
  | cons kv rest ih =>
    obtain ⟨k, vs⟩ := kv
    by_cases hk : k = n2
    · subst hk
      simp [insertVal, lookupVals, h]
    · simp [insertVal, lookupVals, hk, ih]

theorem foldIns_lookup (seq : List (String × String)) :
    ∀ m n, lookupVals (foldIns m seq) n =
      lookupVals m n ++ firstSeen (lookupVals m n) (valsFor n seq) := by
  induction seq with
  | nil => intro m n; simp [foldIns, valsFor, firstSeen]
  | cons pr rest ih =>
    obtain ⟨n2, v⟩ := pr
    intro m n
    rw [foldIns_cons, ih (insertVal m n2 v) n]
    by_cases hn : n2 = n
    · subst hn
      rw [lookupVals_insert_same]
      have hval : valsFor n2 ((n2, v) :: rest) = v :: valsFor n2 rest := by
        simp [valsFor]
      rw [hval]
      simp only [firstSeen]
      by_cases hv : v ∈ lookupVals m n2
      · rw [if_pos hv, if_pos hv]
      · rw [if_neg hv, if_neg hv]
        rw [List.append_assoc]
        congr 1
        rw [List.singleton_append]
        congr 1
        exact firstSeen_congr _ _ _ (fun y => by simp [or_comm])
    · rw [lookupVals_insert_other _ _ _ _ hn]
      have hval : valsFor n ((n2, v) :: rest) = valsFor n rest := by
        simp [valsFor, hn]
      rw [hval]

theorem firstSeen_nodup (l : List String) :
    ∀ seen, (firstSeen seen l).Nodup ∧ ∀ x ∈ firstSeen seen l, x ∉ seen := by
  induction l with
  | nil => intro seen; simp [firstSeen]
  | cons x xs ih =>
    intro seen
    simp only [firstSeen]
    by_cases hx : x ∈ seen
    · rw [if_pos hx]
      exact ih seen
    · rw [if_neg hx]
      obtain ⟨hnd, hmem⟩ := ih (x :: seen)
      refine ⟨List.nodup_cons.mpr ⟨?_, hnd⟩, ?_⟩
      · intro hc
        exact hmem x hc (by simp)
      · intro y hy
        rcases List.mem_cons.mp hy with rfl | hy2
        · exact hx
        · intro hys
          exact hmem y hy2 (List.mem_cons_of_mem _ hys)

theorem lookupVals_of_mem (m : List (String × List String)) :
    (m.map Prod.fst).Nodup → ∀ (n : String) (vs : List String),
      (n, vs) ∈ m → lookupVals m n = vs := by
  induction m with
  | nil => intro _ n vs hm; cases hm
  | cons kv rest ih =>
    obtain ⟨k, ws⟩ := kv
    intro hnd n vs hm
    rcases List.mem_cons.mp hm with heq | hmem
    · injection heq with h1 h2
      subst h1
      subst h2
      simp [lookupVals]
    · have hk : k ≠ n := by
        intro hc
        subst hc
        have hin : k ∈ rest.map Prod.fst := List.mem_map_of_mem Prod.fst hmem
        exact (List.nodup_cons.mp hnd).1 hin
      simp only [lookupVals, if_neg hk]
      exact ih (List.nodup_cons.mp hnd).2 n vs hmem

theorem attributesMapOf_eq (vs : List Variant) :
    attributesMapOf vs = foldIns [] (vs.flatMap Variant.attrs) := by
  suffices h : ∀ acc, vs.foldl (fun acc v => v.attrs.foldl (fun a p => insertVal a p.1 p.2) acc) acc
      = foldIns acc (vs.flatMap Variant.attrs) by
    exact h []
  induction vs with
  | nil => intro acc; rfl
  | cons v rest ih =>
    intro acc
    rw [List.foldl_cons]
    rw [ih (v.attrs.foldl (fun a p => insertVal a p.1 p.2) acc)]
    simp only [foldIns, List.flatMap_cons, List.foldl_append]

theorem snd_mem_of_mem_enumFrom {α : Type} (l : List α) :
    ∀ (k : Nat) (pr : Nat × α), pr ∈ l.enumFrom k → pr.2 ∈ l := by
  induction l with
  | nil => intro k pr hp; cases hp
  | cons x xs ih =>
    intro k pr hp
    simp only [List.enumFrom] at hp
    rcases List.mem_cons.mp hp with rfl | hp2
    · simp
    · exact List.mem_cons_of_mem _ (ih (k + 1) pr hp2)

theorem enum_attr_names (m : List (String × List String)) :
    ((m.enum.map (fun pr => ({ name := pr.2.1, position := pr.1, visible := true, variation := true, options := pr.2.2 } : WooAttribute))).map WooAttribute.name) =
      m.map Prod.fst := by
  rw [List.map_map]
  rw [show (WooAttribute.name ∘ fun pr : Nat × (String × List String) =>
      ({ name := pr.2.1, position := pr.1, visible := true, variation := true, options := pr.2.2 } : WooAttribute)) = (Prod.fst ∘ Prod.snd) from rfl]
  rw [← List.map_map]
  rw [List.enum_map_snd]

/-- C7: zero or one variant gives a simple product with no variations,
two or more give a variable product; a variable product lists attribute
names in first-seen order and each option list holds the distinct
observed values of its attribute in first-seen order. -/
theorem transform_variant_shape (p : Product) (s : Settings) (r : TransformResult)
    (h : transformProductForWoo p s = Except.ok r) :
    ((r.productData.type = "simple" ∧ r.variationsData = []) ↔ numVariants p ≤ 1) ∧
    (r.productData.type = "variable" ↔ 2 ≤ numVariants p) ∧
    (∀ vs, p.variants = some vs → 2 ≤ vs.length →
      (r.productData.attributes.map WooAttribute.name =
          dedupFirst ((vs.flatMap Variant.attrs).map Prod.fst) ∧
        ∀ a ∈ r.productData.attributes,
          a.options = dedupFirst (valsFor a.name (vs.flatMap Variant.attrs)) ∧
            a.options.Nodup)) := by
  cases himg : p.images with
  | none =>
    rw [transformProductForWoo.eq_def, himg] at h
    exact absurd h (by simp)
  | some imgs =>
    rw [transformProductForWoo.eq_def, himg] at h
    cases hv : p.variants with
    | none =>
      rw [hv] at h
      dsimp only at h
      rw [if_pos (by decide : ((!false) = true))] at h
      have h2 := Except.ok.inj h
      subst h2
      refine ⟨⟨fun _ => by simp [numVariants, hv], fun _ => ⟨rfl, rfl⟩⟩, ?_, ?_⟩
      · constructor
        · intro hc
          exact absurd (show ("simple" : String) = "variable" from hc) (by decide)
        · intro hc
          simp [numVariants, hv] at hc
      · intro vs hvs
        exact absurd hvs (by simp)
    | some vs =>
      rw [hv] at h
      dsimp only at h
      have hnum : numVariants p = vs.length := by simp [numVariants, hv]
      by_cases hlen : 1 < vs.length
      · have hdec : decide (vs.length > 1) = true := decide_eq_true hlen
        rw [hdec] at h
        rw [if_neg (by decide : ¬((!true) = true))] at h
        have h2 := Except.ok.inj h
        subst h2
        refine ⟨?_, ?_, ?_⟩
        · constructor
          · intro hc
            exact absurd (show ("variable" : String) = "simple" from hc.1) (by decide)
          · intro hc
            omega
        · exact ⟨fun _ => by omega, fun _ => rfl⟩
        · intro vs2 hvs2 _
          rw [Option.some.injEq] at hvs2
          subst hvs2
          simp only [Option.getD_some]
          constructor
          · rw [enum_attr_names, attributesMapOf_eq, foldIns_keys]
            simp [dedupFirst]
          · intro a ha
            simp only [List.mem_map] at ha
            obtain ⟨pr, hpr, rfl⟩ := ha
            simp only [List.enum] at hpr
            have hmem : pr.2 ∈ attributesMapOf vs := snd_mem_of_mem_enumFrom _ 0 pr hpr
            have hnd : ((attributesMapOf vs).map Prod.fst).Nodup := by
              rw [attributesMapOf_eq, foldIns_keys]
              simpa [dedupFirst] using (firstSeen_nodup ((vs.flatMap Variant.attrs).map Prod.fst) []).1
            have hlook : lookupVals (attributesMapOf vs) pr.2.1 = pr.2.2 :=
              lookupVals_of_mem _ hnd pr.2.1 pr.2.2 (by simpa using hmem)
            have hfold : lookupVals (attributesMapOf vs) pr.2.1 =
                dedupFirst (valsFor pr.2.1 (vs.flatMap Variant.attrs)) := by
              rw [attributesMapOf_eq, foldIns_lookup]
              simp [lookupVals, dedupFirst]
            constructor
            · show pr.2.2 = _
              rw [← hlook, hfold]
            · show pr.2.2.Nodup
              rw [← hlook, hfold]
              exact (firstSeen_nodup (valsFor pr.2.1 (vs.flatMap Variant.attrs)) []).1
      · have hdec : decide (vs.length > 1) = false := decide_eq_false hlen
        rw [hdec] at h
        rw [if_pos (by decide : ((!false) = true))] at h
        have h2 := Except.ok.inj h
        subst h2
        refine ⟨⟨fun _ => by omega, fun _ => ⟨rfl, rfl⟩⟩, ?_, ?_⟩
        · constructor
          · intro hc
            exact absurd (show ("simple" : String) = "variable" from hc) (by decide)
          · intro hc
            omega
        · intro vs2 hvs2 hlen2
          rw [Option.some.injEq] at hvs2
          subst hvs2
          omega

/-- Witness for C7: two variants sharing attribute names, with options
deduplicated in first-seen order. -/
theorem transform_variant_shape_witness :
    ∃ r, transformProductForWoo c7Product defaultSettings = Except.ok r ∧
      r.productData.attributes.map WooAttribute.name =
        dedupFirst ((c7Variants.flatMap Variant.attrs).map Prod.fst) := by
  refine ⟨_, rfl, ?_⟩
  exact ((transform_variant_shape c7Product defaultSettings _ rfl).2.2 c7Variants rfl
    (by decide)).1

/-- Inversion of a successful submission: the job snapshot is the body
settings and the record has no ended stamp yet. -/
theorem startSync_ok_inv (s : ServerState) (b : StartSyncBody) (now : String) (job : Job)
    (h : (startSyncHandler s b now).response = Except.ok job) :
    b.settings = some job.settings ∧ job.ended = none := by
  obtain ⟨kind, pcs, oac, owc, ost⟩ := b
  rcases oac with _ | ac
  · exact Except.noConfusion h
  rcases owc with _ | wc
  · exact Except.noConfusion h
  rcases ost with _ | st0
  · exact Except.noConfusion h
  by_cases h0 : (((pcs.map List.length).getD 0 : Nat) == 0) = true
  · simp [startSyncHandler, h0] at h
  · simp only [startSyncHandler] at h
    rw [if_neg h0] at h
    have h2 := Except.ok.inj h
    subst h2
    exact ⟨rfl, rfl⟩

/-- C9: settings updates posted after submission never change the run:
the dispatched run read from the patched store equals the run read from
the unpatched store, and the rules the run consults are exactly the
settings snapshot submitted with the job. -/
theorem job_rules_snapshot (s : ServerState) (b : StartSyncBody) (now : String) (job : Job)
    (h : (startSyncHandler s b now).response = Except.ok job)
    (ps : List SettingsPatch) (envs : List ItemEnv) (endTime : String) :
    runJobFromState (applyPatches (startSyncHandler s b now).state ps) job.id envs endTime =
      runJobFromState (startSyncHandler s b now).state job.id envs endTime ∧
    (∀ st, b.settings = some st → job.settings = st) := by
  have hjobs : ∀ (ps0 : List SettingsPatch) (s0 : ServerState),
      (applyPatches s0 ps0).jobs = s0.jobs := by
    intro ps0
    induction ps0 with
    | nil => intro s0; rfl
    | cons q rest ih => intro s0; exact ih (postSettingsHandler s0 q)
  constructor
  · unfold runJobFromState lookupJob
    rw [hjobs]
  · intro st hst
    have hinv := (startSync_ok_inv s b now job h).1
    rw [hst] at hinv
    exact (Option.some.inj hinv).symm

/-- Witness for C9: a margin-changing settings update posted after a
concrete submission leaves the dispatched run unchanged. -/
theorem job_rules_snapshot_witness :
    runJobFromState (applyPatches (startSyncHandler c9State c9Body "2024-06-02T00:00:00.000Z").state
        [c9Patch]) c9Job.id [] "E" =
      runJobFromState (startSyncHandler c9State c9Body "2024-06-02T00:00:00.000Z").state
        c9Job.id [] "E" :=
  (job_rules_snapshot c9State c9Body "2024-06-02T00:00:00.000Z" c9Job (by decide) [c9Patch]
    [] "E").1

/-- C1 counterexample: the 201 body of a valid submission does contain
the productCodes and logs keys, so it does not hold only the seven
summary fields. -/
theorem startSync_response_echoes_productCodes :
    (startSyncHandler c1State c1Body "2024-06-01T00:00:00.000Z").response.map
        (fun j => decide ("productCodes" ∈ startSyncResponseKeys j) &&
          decide ("logs" ∈ startSyncResponseKeys j)) = Except.ok true := by
  decide

/-- C1 amended: the 201 body strips exactly apiConfig, wooConfig and
settings, so it carries id, kind, status, total, done, started, error,
logs and productCodes; the GET job body carries exactly the seven
summary fields plus ended once the run has finished, and never logs,
productCodes or credentials. -/
theorem response_keys_amended (s : ServerState) (b : StartSyncBody) (now : String) (job : Job)
    (h : (startSyncHandler s b now).response = Except.ok job) :
    startSyncResponseKeys job =
      ["id", "kind", "status", "total", "done", "started", "error", "logs", "productCodes"] ∧
    (∀ j : Job, jobStatusResponseKeys j =
      ["id", "kind", "status", "total", "done", "started", "error"] ++
        (if j.ended.isSome then ["ended"] else [])) := by
  constructor
  · have hend : job.ended = none := (startSync_ok_inv s b now job h).2
    unfold startSyncResponseKeys jobObjectKeys
    rw [hend]
    rfl
  · intro j
    unfold jobStatusResponseKeys jobObjectKeys
    cases hj : j.ended
    · rfl
    · rfl

/-- Witness for C1 amended: the keys of the 201 body for the concrete
submission. -/
theorem response_keys_amended_witness :
    startSyncResponseKeys c1Job =
      ["id", "kind", "status", "total", "done", "started", "error", "logs", "productCodes"] :=
  (response_keys_amended c1State c1Body "2024-06-01T00:00:00.000Z" c1Job (by decide)).1

end Promodata
